import Mathlib

/-!
Verification of the Rust-ETL normalization engine.

This file gives a shallow embedding of the repository's two conversion
pipelines and proves the specification claims about them.

* `process_json_to_parquet` embeds `src/processor.rs` (the alternate
  pipeline: schema inference, root unnesting, technical-column pruning,
  byte-list repair, Parquet write with Snappy compression and explicit
  statistics options, raw-file deletion).
* `process_raw_to_parquet` embeds `src/analysis.rs` (the pipeline used by
  `main.rs`: envelope parse, extraction of the fixed `"resultado"` key,
  inference, Parquet write with ZSTD compression).
* `mainUnit` embeds the per-unit conversion/cleanup step of `main.rs`.

File-system effects (output creation, output write, raw-file deletion) are
made explicit as fields of outcome records; fallible I/O steps whose success
depends on the environment are injected as boolean parameters.
-/

namespace RustETL

/-- Semantic column types of the in-memory table (the Polars dtypes the
engine manipulates). -/
inductive DType where
  | int64
  | float64
  | utf8
  | boolean
  | binary
  | uint8
  | listT (inner : DType)
  | structT (fields : List (String × DType))

/-- Cell values of the in-memory table. JSON / dataframe numbers split into
64-bit integers and 64-bit floats (the latter modelled as rationals). -/
inductive Value where
  | null
  | int (i : Int)
  | float (q : ℚ)
  | str (s : String)
  | boolean (b : Bool)
  | bin (bytes : List Nat)
  | listV (items : List Value)
  | structV (fields : List (String × Value))

/-- A named column with a uniform semantic type. -/
structure Column where
  name : String
  dtype : DType
  values : List Value

/-- A table is an ordered sequence of named columns. -/
abbrev Table := List Column

/-- Whether the table has a column of the given name
(`dataframe.column(name).is_ok()` in the source). -/
def hasCol (t : Table) (n : String) : Bool :=
  t.any (·.name = n)

/-- The column of the given name, when present. -/
def getCol (t : Table) (n : String) : Option Column :=
  t.find? (·.name = n)

/-- Row count of a table; `0` for a table with no columns
(`DataFrame::height`). -/
def height : Table → Nat
  | [] => 0
  | c :: _ => c.values.length

/-- `(rows, columns)` of a table (`DataFrame::shape`). -/
def shape (t : Table) : Nat × Nat :=
  (height t, t.length)

/-- The column names of a table, in order. -/
def names (t : Table) : List String :=
  t.map (·.name)

/-! ## Root Unnester (`processor.rs` lines 38-55) -/

/-- Row expansion performed by the dataframe library's `explode`: a list
contributes one row per element, while an empty list or a null contributes a
single null row (the library's documented behavior for `explode`). -/
def explodeVal : Value → List Value
  | .listV [] => [.null]
  | .listV (x :: xs) => x :: xs
  | .null => [.null]
  | v => [v]

/-- Number of output rows one input row contributes when exploded. -/
def explodeLen (v : Value) : Nat :=
  (explodeVal v).length

/-- `DataFrame::explode([n])`: requires the target column to exist with a
list dtype; the target column is flattened one row per element and every
other column has its row values replicated to match. -/
def explodeCol (t : Table) (n : String) : Except String Table :=
  match getCol t n with
  | none => .error "explode: column not found"
  | some target =>
    match target.dtype with
    | .listT inner =>
      .ok (t.map fun c =>
        if c.name = n then
          { name := c.name, dtype := inner,
            values := target.values.flatMap explodeVal }
        else
          { name := c.name, dtype := c.dtype,
            values := (target.values.zip c.values).flatMap fun p =>
              List.replicate (explodeLen p.1) p.2 })
    | _ => .error "explode: not a list dtype"

/-- The value of the field `fname` inside a struct value; null for a null
struct row or a missing field. -/
def getFieldVal (fname : String) : Value → Value
  | .structV fs =>
    match fs.find? (·.1 = fname) with
    | some p => p.2
    | none => .null
  | _ => .null

/-- `DataFrame::unnest([n])`: requires the target column to exist with a
struct dtype; the struct fields become top-level columns inserted at the
target's position, replacing it. Fails on a non-struct dtype and on a
resulting duplicate column name (the library's error conditions). -/
def unnestCol (t : Table) (n : String) : Except String Table :=
  match getCol t n with
  | none => .error "unnest: column not found"
  | some target =>
    match target.dtype with
    | .structT fts =>
      let out : Table := t.flatMap fun c =>
        if c.name = n then
          fts.map fun ft =>
            { name := ft.1, dtype := ft.2,
              values := target.values.map (getFieldVal ft.1) }
        else [c]
      if (out.map (·.name)).Nodup then .ok out
      else .error "unnest: duplicate column names"
    | _ => .error "unnest: not a struct dtype"

/-- The root-path normalization block of `process_json_to_parquet`
(`processor.rs` lines 38-55): guarded by the root path being present,
non-empty, and naming an existing column; then a three-way dispatch on the
column dtype. Only the catch-all branch falls back to the unchanged table
(`unwrap_or(dataframe)` in the source); the list and struct branches
propagate errors with `?`. -/
def rootUnnest (t : Table) (rootPath : Option String) : Except String Table :=
  match rootPath with
  | none => .ok t
  | some p =>
    if p = "" then .ok t
    else
      match getCol t p with
      | none => .ok t
      | some tc =>
        match tc.dtype with
        | .listT _ =>
          match explodeCol t p with
          | .ok t1 => unnestCol t1 p
          | .error e => .error e
        | .structT _ => unnestCol t p
        | _ =>
          match unnestCol t p with
          | .ok r => .ok r
          | .error _ => .ok t

/-! ## Column Pruner (`processor.rs` lines 57-72) -/

/-- The fixed technical-column set of `processor.rs` (lines 58-66). -/
def technical_cols : List String :=
  ["totalRegistros", "totalPaginas", "paginasRestantes", "links",
   "dataHoraConsulta", "timeZoneAtual", "dataHoraAtualizacao"]

/-- `DataFrame::drop(n)`: removes the column named `n`, failing when it is
absent. -/
def dropCol (t : Table) (n : String) : Except String Table :=
  if hasCol t n then .ok (t.eraseP (·.name = n))
  else .error "drop: column not found"

/-- One iteration of the pruning loop: drop the named column only when it is
present (`if dataframe.column(col).is_ok() { ... drop(col)? }`). -/
def pruneStep (t : Table) (n : String) : Except String Table :=
  if hasCol t n then dropCol t n else .ok t

/-- The pruning loop over a list of names, aborting on the first error. -/
def pruneLoop : Table → List String → Except String Table
  | t, [] => .ok t
  | t, n :: ns =>
    match pruneStep t n with
    | .ok t1 => pruneLoop t1 ns
    | .error e => .error e

/-- The technical-column pruning loop of `process_json_to_parquet`
(`processor.rs` lines 68-72). -/
def pruneTechnical (t : Table) : Except String Table :=
  pruneLoop t technical_cols

/-! ## Byte-List Repairer (`processor.rs` lines 99-123) -/

/-- Truncation of a rational toward zero (the integral part of a float). -/
def truncRat (q : ℚ) : Int :=
  if 0 ≤ q then q.floor else q.ceil

/-- Modelled from the spec: the numeric-to-byte narrowing performed by the
external cast to `List(UInt8)` — "values are narrowed/truncated into the
0-255 range". The cast kernel itself lives in the dataframe library; only
this contract is embedded. Non-numeric elements do not narrow. -/
def narrowToByte : Value → Option Nat
  | .int i => some (i % 256).toNat
  | .float q => some (truncRat q % 256).toNat
  | _ => none

/-- One step of UTF-8 decoding (strict): consumes one scalar value from the
byte list, returning the decoded character and the remaining bytes. -/
def utf8DecodeStep : List Nat → Option (Char × List Nat)
  | [] => none
  | b :: rest =>
    if b < 0x80 then some (Char.ofNat b, rest)
    else if 0xC2 ≤ b ∧ b ≤ 0xDF then
      match rest with
      | c1 :: rest1 =>
        if 0x80 ≤ c1 ∧ c1 < 0xC0 then
          some (Char.ofNat ((b - 0xC0) * 64 + (c1 - 0x80)), rest1)
        else none
      | _ => none
    else if 0xE0 ≤ b ∧ b ≤ 0xEF then
      match rest with
      | c1 :: c2 :: rest2 =>
        if 0x80 ≤ c1 ∧ c1 < 0xC0 ∧ 0x80 ≤ c2 ∧ c2 < 0xC0 then
          let cp := (b - 0xE0) * 4096 + (c1 - 0x80) * 64 + (c2 - 0x80)
          if 0x800 ≤ cp ∧ ¬ (0xD800 ≤ cp ∧ cp ≤ 0xDFFF) then
            some (Char.ofNat cp, rest2)
          else none
        else none
      | _ => none
    else if 0xF0 ≤ b ∧ b ≤ 0xF4 then
      match rest with
      | c1 :: c2 :: c3 :: rest3 =>
        if 0x80 ≤ c1 ∧ c1 < 0xC0 ∧ 0x80 ≤ c2 ∧ c2 < 0xC0 ∧
            0x80 ≤ c3 ∧ c3 < 0xC0 then
          let cp := (b - 0xF0) * 262144 + (c1 - 0x80) * 4096 +
            (c2 - 0x80) * 64 + (c3 - 0x80)
          if 0x10000 ≤ cp ∧ cp ≤ 0x10FFFF then
            some (Char.ofNat cp, rest3)
          else none
        else none
      | _ => none
    else none

/-- Strict UTF-8 decoding of a byte sequence, fuelled by the list length. -/
def utf8DecodeAux : Nat → List Nat → Option (List Char)
  | _, [] => some []
  | 0, _ :: _ => none
  | fuel + 1, bs =>
    match utf8DecodeStep bs with
    | some (c, rest) => (utf8DecodeAux fuel rest).map (c :: ·)
    | none => none

/-- Modelled from the spec: UTF-8 decoding of the narrowed byte sequence
("decode the resulting byte sequence as UTF-8 text"); the decoder itself
lives in the dataframe library's binary-to-string cast. -/
def utf8Decode (bs : List Nat) : Option (List Char) :=
  utf8DecodeAux bs.length bs

/-- `narrowToByte` applied across the elements of one list, failing if any
element does not narrow. -/
def narrowAll : List Value → Option (List Nat)
  | [] => some []
  | v :: vs =>
    match narrowToByte v, narrowAll vs with
    | some b, some bs => some (b :: bs)
    | _, _ => none

/-- The per-row repair of one list value: narrow every element to a byte and
decode the byte sequence as UTF-8 text; nulls stay null; any element that
does not narrow or a byte sequence that is not valid UTF-8 fails. -/
def repairValue : Value → Option Value
  | .null => some .null
  | .listV items =>
    match narrowAll items with
    | none => none
    | some bytes =>
      match utf8Decode bytes with
      | none => none
      | some cs => some (.str (String.mk cs))
  | _ => none

/-- The dtypes targeted by the Byte-List Repairer
(`matches!(**inner_type, DataType::Int64 | DataType::Float64)`). -/
def isByteListDType : DType → Bool
  | .listT .int64 => true
  | .listT .float64 => true
  | _ => false

/-- `repairValue` applied across the rows of one column, failing if any row
fails. -/
def repairAllValues : List Value → Option (List Value)
  | [] => some []
  | v :: vs =>
    match repairValue v, repairAllValues vs with
    | some v2, some vs2 => some (v2 :: vs2)
    | _, _ => none

/-- Repair of one column (`processor.rs` lines 107-119): a
list-of-int64/float64 column is replaced in place by a text column; any
other column is untouched. A repair failure aborts with an error
(the spec's `EncodingError`). -/
def repairColumn (c : Column) : Except String Column :=
  if isByteListDType c.dtype then
    match repairAllValues c.values with
    | some vs => .ok { name := c.name, dtype := .utf8, values := vs }
    | none => .error "byte repair: invalid data"
  else .ok c

/-- `byte_arrays` (`processor.rs` lines 100-123): iterates over the columns,
repairing each byte-list column in place and aborting on the first
failure. -/
def byte_arrays : Table → Except String Table
  | [] => .ok []
  | c :: t =>
    match repairColumn c with
    | .error e => .error e
    | .ok c2 =>
      match byte_arrays t with
      | .ok t2 => .ok (c2 :: t2)
      | .error e => .error e

/-! ## JSON values and schema inference -/

/-- A decoded JSON document (the `serde_json::Value` of `analysis.rs`). -/
inductive Json where
  | null
  | boolean (b : Bool)
  | num (q : ℚ)
  | str (s : String)
  | arr (items : List Json)
  | obj (fields : List (String × Json))

/-- `Value::get(key)` of `serde_json`: a field lookup that succeeds only on
objects; on an array or any other value it returns `none`. -/
def Json.getKey : Json → String → Option Json
  | .obj fs, k => (fs.find? (·.1 = k)).map (·.2)
  | _, _ => none

mutual

/-- The table cell obtained from one JSON value: whole numbers become 64-bit
integers, other numbers floats, arrays lists, objects structs. -/
def valueOfJson : Json → Value
  | .null => .null
  | .boolean b => .boolean b
  | .num q => if q.den = 1 then .int q.num else .float q
  | .str s => .str s
  | .arr xs => .listV (valueOfJsonList xs)
  | .obj fs => .structV (valueOfJsonFields fs)

/-- `valueOfJson` mapped over a list of JSON values. -/
def valueOfJsonList : List Json → List Value
  | [] => []
  | x :: xs => valueOfJson x :: valueOfJsonList xs

/-- `valueOfJson` mapped over the fields of a JSON object. -/
def valueOfJsonFields : List (String × Json) → List (String × Value)
  | [] => []
  | f :: fs => (f.1, valueOfJson f.2) :: valueOfJsonFields fs

end

mutual

/-- The semantic dtype of one non-null value. -/
def dtypeOfValue : Value → DType
  | .null => .utf8
  | .int _ => .int64
  | .float _ => .float64
  | .str _ => .utf8
  | .boolean _ => .boolean
  | .bin _ => .binary
  | .listV [] => .listT .utf8
  | .listV (x :: _) => .listT (dtypeOfValue x)
  | .structV fs => .structT (dtypeOfFields fs)

/-- `dtypeOfValue` mapped over struct fields. -/
def dtypeOfFields : List (String × Value) → List (String × DType)
  | [] => []
  | f :: fs => (f.1, dtypeOfValue f.2) :: dtypeOfFields fs

end

/-- The dtype inferred for a column: the dtype of its first non-null value,
defaulting to text. -/
def colDType : List Value → DType
  | [] => .utf8
  | .null :: rest => colDType rest
  | v :: _ => dtypeOfValue v

/-- Whether a JSON value is an object (a record). -/
def isObj : Json → Bool
  | .obj _ => true
  | _ => false

/-- The keys of one record. -/
def recordKeys : Json → List String
  | .obj fs => fs.map (·.1)
  | _ => []

/-- The union of keys observed across the records, in first-appearance
order. -/
def unionKeys (records : List Json) : List String :=
  records.foldl
    (fun acc r => acc ++ (recordKeys r).filter (fun k => ¬ acc.contains k)) []

/-- Modelled from the spec: the external dataframe reader's schema inference
(spec 4.1) — the columns are the union of keys observed across the records,
a missing key yields a null in that record's row, and an array of
non-objects is a schema error. The inference itself lives in the external
dataframe library; only this observable contract is embedded. -/
def inferSchema (records : List Json) : Except String Table :=
  if records.all isObj then
    .ok ((unionKeys records).map fun k =>
      { name := k
        dtype := colDType (records.map fun r =>
          valueOfJson ((Json.getKey r k).getD .null))
        values := records.map fun r =>
          valueOfJson ((Json.getKey r k).getD .null) })
  else .error "expected an array of records"

/-! ## Columnar Writer configuration and pipeline outcomes -/

/-- Parquet compression codecs used by the two pipelines. -/
inductive Compression where
  | snappy
  | zstd
deriving DecidableEq

/-- The per-column statistics flags of the Parquet writer. -/
structure StatisticsOptions where
  min_value : Bool
  max_value : Bool
  null_count : Bool
  distinct_count : Bool
deriving DecidableEq

/-- The statistics options hardcoded in `processor.rs` lines 80-85. -/
def processorStats : StatisticsOptions :=
  { min_value := true, max_value := true,
    null_count := true, distinct_count := false }

/-- A successfully written columnar output file: its codec, its statistics
configuration (`none` when the writer was not given explicit options), and
the table it serialized. -/
structure WrittenFile where
  codec : Compression
  stats : Option StatisticsOptions
  table : Table

/-- The error taxonomy of `errors.rs` (`ProcessorError`), with a variant for
errors surfaced by the dataframe library. -/
inductive PErr where
  | io (msg : String)
  | json (msg : String)
  | parquet (msg : String)
  | schema (msg : String)
  | polars (msg : String)

/-- Observable outcome of one `process_json_to_parquet` call: the returned
result and the file-system effects performed. -/
structure ProcOutcome where
  result : Except PErr Unit
  outputCreated : Bool
  written : Option WrittenFile
  rawDeleted : Bool

/-- Embedding of `process_json_to_parquet` (`processor.rs` lines 17-97).
`parsed` is the outcome of reading and parsing the raw file through the
JSON reader; `writeOk` and `deleteOk` inject the environment's success of
the Parquet write and of the raw-file removal. -/
def process_json_to_parquet (parsed : Except String Table)
    (rootPath : Option String) (writeOk : Bool) (deleteOk : Bool) :
    ProcOutcome :=
  match parsed with
  | .error e =>
    ⟨.error (.parquet ("Falha no parsing JSON: " ++ e)), false, none, false⟩
  | .ok df0 =>
    if height df0 = 0 then
      ⟨.error (.schema "Arquivo JSON sem registros ou vazio"),
        false, none, false⟩
    else
      match rootUnnest df0 rootPath with
      | .error e => ⟨.error (.polars e), false, none, false⟩
      | .ok df1 =>
        match pruneTechnical df1 with
        | .error e => ⟨.error (.polars e), false, none, false⟩
        | .ok df2 =>
          match byte_arrays df2 with
          | .error e => ⟨.error (.polars e), false, none, false⟩
          | .ok df3 =>
            if writeOk then
              if deleteOk then
                ⟨.ok (), true, some ⟨.snappy, some processorStats, df3⟩, true⟩
              else
                ⟨.error (.io "falha ao remover arquivo"), true,
                  some ⟨.snappy, some processorStats, df3⟩, false⟩
            else
              ⟨.error (.parquet "Erro ao gravar Parquet"), true, none, false⟩

/-- Observable outcome of one `process_raw_to_parquet` call. -/
structure AnalysisOutcome where
  result : Except String (Nat × Nat)
  outputCreated : Bool
  written : Option WrittenFile

/-- Embedding of `process_raw_to_parquet` (`analysis.rs` lines 30-79).
`parsed` is the outcome of reading and parsing the raw file with
`serde_json`; `writeOk` injects the environment's success of the Parquet
write. The root path is hardcoded to the key `"resultado"`, mirroring the
source. -/
def process_raw_to_parquet (parsed : Except String Json) (writeOk : Bool) :
    AnalysisOutcome :=
  match parsed with
  | .error e => ⟨.error e, false, none⟩
  | .ok envelope =>
    match envelope.getKey "resultado" with
    | none => ⟨.error "Campo resultado ausente no JSON.", false, none⟩
    | some lista =>
      match lista with
      | .arr items =>
        if items.isEmpty then ⟨.ok (0, 0), false, none⟩
        else
          match inferSchema items with
          | .error e =>
            ⟨.error ("Erro ao converter JSON para DataFrame: " ++ e),
              false, none⟩
          | .ok df =>
            if writeOk then ⟨.ok (shape df), true, some ⟨.zstd, none, df⟩⟩
            else ⟨.error "Erro ao gravar Parquet", true, none⟩
      | _ => ⟨.error "O campo resultado nao e uma lista valida.", false, none⟩

/-- Observable outcome of one unit of the `main.rs` processing loop. -/
structure UnitOutcome where
  result : Except String (Nat × Nat)
  outputCreated : Bool
  written : Option WrittenFile
  rawDeleted : Bool

/-- Embedding of the conversion/cleanup step of one unit of the `main.rs`
loop (lines 102-118): on an `Ok` shape from `process_raw_to_parquet` the raw
file is removed (a removal failure is only logged, leaving the result
unchanged); on an `Err` the raw file is left in place and the error is
reported. -/
def mainUnit (parsed : Except String Json) (writeOk : Bool)
    (deleteOk : Bool) : UnitOutcome :=
  let a := process_raw_to_parquet parsed writeOk
  match a.result with
  | .ok s => ⟨.ok s, a.outputCreated, a.written, deleteOk⟩
  | .error e => ⟨.error e, a.outputCreated, a.written, false⟩

/-- Whether a dtype is a list or a struct (the two dispatch branches of the
Root Unnester that are not the best-effort fallback). -/
def isNested : DType → Bool
  | .listT _ => true
  | .structT _ => true
  | _ => false

/-- Whether one entry point can produce differently-compressed output files
on two different calls. -/
def codecSelectable {α : Type} (run : α → Option WrittenFile) : Prop :=
  ∃ a1 a2 f1 f2, run a1 = some f1 ∧ run a2 = some f2 ∧ f1.codec ≠ f2.codec

/-- The output file produced by a `process_json_to_parquet` call, as a
function of the call's entire argument vector. -/
def processorRun (a : Except String Table × Option String × Bool × Bool) :
    Option WrittenFile :=
  (process_json_to_parquet a.1 a.2.1 a.2.2.1 a.2.2.2).written

/-- The output file produced by a `process_raw_to_parquet` call, as a
function of the call's entire argument vector. -/
def analysisRun (a : Except String Json × Bool) : Option WrittenFile :=
  (process_raw_to_parquet a.1 a.2).written

/-- The table inferred from the two-record example envelope. -/
def twoRecordTable : Table :=
  [⟨"id", .int64, [.int 1, .int 2]⟩,
   ⟨"nome", .utf8, [.str "Ana", .str "Beto"]⟩]

/-! ## Concrete example data for witnesses and counterexamples -/

/-- A decoded table holding a root column of type list-of-int64. -/
def listIntTable : Table := [⟨"r", .listT .int64, [.listV [.int 65]]⟩]

/-- A table whose root column holds an empty list in its only row. -/
def emptyListRowTable : Table :=
  [⟨"a", .int64, [.int 1]⟩,
   ⟨"r", .listT (.structT [("x", .int64)]), [.listV []]⟩]

/-- A two-row table whose root column holds a two-element list of structs
and an empty list. -/
def exampleExplodeTable : Table :=
  [⟨"a", .int64, [.int 1, .int 2]⟩,
   ⟨"r", .listT (.structT [("x", .int64)]),
     [.listV [.structV [("x", .int 10)], .structV [("x", .int 20)]],
      .listV []]⟩]

/-- The root column of `exampleExplodeTable`. -/
def exampleExplodeTarget : Column :=
  ⟨"r", .listT (.structT [("x", .int64)]),
    [.listV [.structV [("x", .int 10)], .structV [("x", .int 20)]],
     .listV []]⟩

/-- The table produced by unnesting `exampleExplodeTable` at `"r"`: the
first row's two list elements give two rows, the second row's empty list
gives one null row. -/
def exampleExplodeOut : Table :=
  [⟨"a", .int64, [.int 1, .int 1, .int 2]⟩,
   ⟨"x", .int64, [.int 10, .int 20, .null]⟩]

/-- A single-column table of a byte-list `descricao` holding ASCII "Ana". -/
def descricaoTable : Table :=
  [⟨"descricao", .listT .int64, [.listV [.int 65, .int 110, .int 97]]⟩]

/-- The repaired form of `descricaoTable`. -/
def descricaoRepaired : Table := [⟨"descricao", .utf8, [.str "Ana"]⟩]

/-- What the Byte-List Repairer does to one row of a targeted column: a null
stays null, and a list row becomes the text obtained by narrowing each
element into the 0-255 byte range and decoding the bytes as UTF-8. -/
def rowRepaired (v v2 : Value) : Prop :=
  (v = .null → v2 = .null) ∧
  (∀ items, v = .listV items →
    ∃ bytes cs, narrowAll items = some bytes ∧
      utf8Decode bytes = some cs ∧ v2 = .str (String.mk cs))

/-- What the Byte-List Repairer does to one column: a column whose type is
not list-of-int64/float64 is untouched; a targeted column keeps its name,
becomes text-typed, and has each row repaired per `rowRepaired`. -/
def columnRepaired (c c2 : Column) : Prop :=
  (isByteListDType c.dtype = false → c2 = c) ∧
  (isByteListDType c.dtype = true →
    c2.name = c.name ∧ c2.dtype = .utf8 ∧
    List.Forall₂ rowRepaired c.values c2.values)

/-- A plain one-column data table. -/
def idTable : Table := [⟨"id", .int64, [.int 1]⟩]

/-- A table mixing a data column and a technical column. -/
def idTotalTable : Table :=
  [⟨"id", .int64, [.int 1]⟩, ⟨"totalRegistros", .int64, [.int 5]⟩]

/-- An envelope whose `resultado` list is empty. -/
def emptyResultadoJson : Json := .obj [("resultado", .arr [])]

/-- An envelope whose `resultado` list holds two records. -/
def twoRecordJson : Json :=
  .obj [("resultado", .arr
    [.obj [("id", .num 1), ("nome", .str "Ana")],
     .obj [("id", .num 2), ("nome", .str "Beto")]])]

/-- A document whose root is a bare array of records (no envelope). -/
def bareArrayJson : Json := .arr [.obj [("a", .num 1)]]

/-! ## Outcome characterizations of the two pipelines -/

theorem processor_outcome_cases (p : Except String Table)
    (rp : Option String) (w d : Bool) :
    (∃ e, process_json_to_parquet p rp w d = ⟨.error e, false, none, false⟩) ∨
    process_json_to_parquet p rp w d =
      ⟨.error (.parquet "Erro ao gravar Parquet"), true, none, false⟩ ∨
    (∃ df, process_json_to_parquet p rp w d =
      ⟨.error (.io "falha ao remover arquivo"), true,
        some ⟨.snappy, some processorStats, df⟩, false⟩) ∨
    (∃ df, process_json_to_parquet p rp w d =
      ⟨.ok (), true, some ⟨.snappy, some processorStats, df⟩, true⟩) := by
  unfold process_json_to_parquet
  rcases p with e | df0
  · exact .inl ⟨_, rfl⟩
  · dsimp only
    split
    · exact .inl ⟨_, rfl⟩
    · split
      · exact .inl ⟨_, rfl⟩
      · split
        · exact .inl ⟨_, rfl⟩
        · split
          · exact .inl ⟨_, rfl⟩
          · split
            · split
              · exact .inr (.inr (.inr ⟨_, rfl⟩))
              · exact .inr (.inr (.inl ⟨_, rfl⟩))
            · exact .inr (.inl rfl)

theorem analysis_outcome_cases (p : Except String Json) (w : Bool) :
    (∃ e, process_raw_to_parquet p w = ⟨.error e, false, none⟩) ∨
    process_raw_to_parquet p w =
      ⟨.error "Erro ao gravar Parquet", true, none⟩ ∨
    process_raw_to_parquet p w = ⟨.ok (0, 0), false, none⟩ ∨
    (∃ df, process_raw_to_parquet p w =
      ⟨.ok (shape df), true, some ⟨.zstd, none, df⟩⟩) := by
  unfold process_raw_to_parquet
  rcases p with e | j
  · exact .inl ⟨_, rfl⟩
  · dsimp only
    split
    · exact .inl ⟨_, rfl⟩
    · split
      · split
        · exact .inr (.inr (.inl rfl))
        · split
          · exact .inl ⟨_, rfl⟩
          · split
            · exact .inr (.inr (.inr ⟨_, rfl⟩))
            · exact .inr (.inl rfl)
      · exact .inl ⟨_, rfl⟩

/-! ## Claim C1: empty inputs -/

/-- C1 counterexample: on an input whose decoded record list is empty, the
`process_json_to_parquet` pipeline does not succeed with shape (0, 0): it
fails with a Schema error. -/
theorem c1_empty_input_counterexample :
    (process_json_to_parquet (.ok ([] : Table)) none true true).result =
      .error (.schema "Arquivo JSON sem registros ou vazio") := rfl

/-- C1 (amended): on an input whose decoded record list is empty, the
orchestrator pipeline (`main.rs` plus `process_raw_to_parquet`) succeeds
without error, reports shape (0, 0), and creates no output file; the
alternate `process_json_to_parquet` pipeline instead rejects the empty
input with a Schema error. -/
theorem c1_empty_input (j : Json) (wOk dOk : Bool) (t : Table)
    (rp : Option String) (w2 d2 : Bool)
    (hr : j.getKey "resultado" = some (.arr []))
    (ht : height t = 0) :
    (mainUnit (.ok j) wOk dOk).result = .ok (0, 0) ∧
    (mainUnit (.ok j) wOk dOk).outputCreated = false ∧
    (mainUnit (.ok j) wOk dOk).written = none ∧
    (process_json_to_parquet (.ok t) rp w2 d2).result =
      .error (.schema "Arquivo JSON sem registros ou vazio") := by
  have ha : process_raw_to_parquet (.ok j) wOk = ⟨.ok (0, 0), false, none⟩ := by
    simp [process_raw_to_parquet, hr]
  refine ⟨?_, ?_, ?_, ?_⟩
  · simp [mainUnit, ha]
  · simp [mainUnit, ha]
  · simp [mainUnit, ha]
  · simp [process_json_to_parquet, ht]

/-- C1 witness at concrete inputs. -/
theorem c1_empty_input_witness :
    (mainUnit (.ok emptyResultadoJson) true true).result = .ok (0, 0) ∧
    (mainUnit (.ok emptyResultadoJson) true true).outputCreated = false ∧
    (mainUnit (.ok emptyResultadoJson) true true).written = none ∧
    (process_json_to_parquet (.ok ([] : Table)) none true true).result =
      .error (.schema "Arquivo JSON sem registros ou vazio") :=
  c1_empty_input emptyResultadoJson true true [] none true true rfl rfl

/-! ## Claim C2: Root Unnester error behavior -/

/-- C2 counterexample: the list branch of the Root Unnester is not
error-free — on a root column of type list-of-int64 the explode succeeds
but the subsequent unnest fails, and the error propagates. -/
theorem c2_unnester_counterexample :
    rootUnnest listIntTable (some "r") =
      .error "unnest: not a struct dtype" := rfl

/-- C2 (amended): only the catch-all branch of the Root Unnester's dispatch
is error-free: when the target column exists with a type that is neither
list nor struct, the failed best-effort unnest falls back to the table
unchanged; the list and struct branches propagate errors. -/
theorem c2_unnester_fallback (t : Table) (p : String) (c : Column)
    (hc : getCol t p = some c) (hn : isNested c.dtype = false) :
    rootUnnest t (some p) = .ok t := by
  by_cases hpe : p = ""
  · simp [rootUnnest, hpe]
  · simp only [rootUnnest, if_neg hpe, hc]
    cases hd : c.dtype <;> simp_all [isNested, unnestCol, hc]

/-- C2 witness at a concrete input. -/
theorem c2_unnester_fallback_witness :
    rootUnnest idTable (some "id") = .ok idTable :=
  c2_unnester_fallback idTable "id" ⟨"id", .int64, [.int 1]⟩ rfl rfl

/-! ## Claim C7: Root Unnester no-op conditions -/

/-- C7: the Root Unnester returns the table unchanged when the root path is
absent, is the empty string, or names a column that does not exist. -/
theorem c7_unnester_noop (t : Table) (rp : Option String)
    (h : rp = none ∨ rp = some "" ∨
      ∃ p, rp = some p ∧ getCol t p = none) :
    rootUnnest t rp = .ok t := by
  rcases h with h | h | ⟨p, hp, hc⟩
  · subst h; rfl
  · subst h; simp [rootUnnest]
  · subst hp
    by_cases hpe : p = ""
    · simp [rootUnnest, hpe]
    · simp [rootUnnest, hpe, hc]

/-- C7 witness at a concrete input (a root path naming no column). -/
theorem c7_unnester_noop_witness :
    rootUnnest idTable (some "resultado") = .ok idTable :=
  c7_unnester_noop idTable (some "resultado")
    (Or.inr (Or.inr ⟨"resultado", rfl, rfl⟩))

/-! ## Codec and statistics facts shared by C3 and C9 -/

theorem processor_written_codec (p : Except String Table)
    (rp : Option String) (w d : Bool) (f : WrittenFile)
    (h : (process_json_to_parquet p rp w d).written = some f) :
    f.codec = .snappy ∧ f.stats = some processorStats := by
  rcases processor_outcome_cases p rp w d with ⟨e, he⟩ | he | ⟨df, he⟩ | ⟨df, he⟩
  · rw [he] at h; simp at h
  · rw [he] at h; simp at h
  · rw [he] at h; simp at h; subst h; exact ⟨rfl, rfl⟩
  · rw [he] at h; simp at h; subst h; exact ⟨rfl, rfl⟩

theorem analysis_written_codec (p : Except String Json) (w : Bool)
    (f : WrittenFile) (h : (process_raw_to_parquet p w).written = some f) :
    f.codec = .zstd ∧ f.stats = none := by
  rcases analysis_outcome_cases p w with ⟨e, he⟩ | he | he | ⟨df, he⟩
  · rw [he] at h; simp at h
  · rw [he] at h; simp at h
  · rw [he] at h; simp at h
  · rw [he] at h; simp at h; subst h; exact ⟨rfl, rfl⟩

/-! ## Claim C3: compression profiles -/

/-- C3 counterexample: neither entry point lets the caller select the
compression codec — on every pair of calls of one entry point that write a
file, the codecs coincide. -/
theorem c3_codec_counterexample :
    ¬ codecSelectable processorRun ∧ ¬ codecSelectable analysisRun := by
  constructor
  · rintro ⟨a1, a2, f1, f2, h1, h2, hne⟩
    have e1 := (processor_written_codec a1.1 a1.2.1 a1.2.2.1 a1.2.2.2 f1 h1).1
    have e2 := (processor_written_codec a2.1 a2.2.1 a2.2.2.1 a2.2.2.2 f2 h2).1
    exact hne (e1.trans e2.symm)
  · rintro ⟨a1, a2, f1, f2, h1, h2, hne⟩
    have e1 := (analysis_written_codec a1.1 a1.2 f1 h1).1
    have e2 := (analysis_written_codec a2.1 a2.2 f2 h2).1
    exact hne (e1.trans e2.symm)

/-- C3 (amended): two compression profiles are present in the codebase —
the high-speed Snappy codec, hardcoded in `process_json_to_parquet`, and
the high-ratio ZSTD codec, hardcoded in `process_raw_to_parquet` — but each
entry point's codec is fixed, not selectable per call. -/
theorem c3_two_codecs (p1 : Except String Table) (rp : Option String)
    (w1 d1 : Bool) (p2 : Except String Json) (w2 : Bool)
    (f g : WrittenFile)
    (h1 : (process_json_to_parquet p1 rp w1 d1).written = some f)
    (h2 : (process_raw_to_parquet p2 w2).written = some g) :
    f.codec = .snappy ∧ g.codec = .zstd ∧
      Compression.snappy ≠ Compression.zstd :=
  ⟨(processor_written_codec p1 rp w1 d1 f h1).1,
   (analysis_written_codec p2 w2 g h2).1, by decide⟩

/-- C3 witness: both hypotheses hold at concrete successful runs. -/
theorem c3_two_codecs_witness :
    (⟨.snappy, some processorStats, idTable⟩ : WrittenFile).codec =
      .snappy ∧
    (⟨.zstd, none, twoRecordTable⟩ : WrittenFile).codec = .zstd ∧
    Compression.snappy ≠ Compression.zstd :=
  c3_two_codecs (.ok idTable) none true true (.ok twoRecordJson) true
    ⟨.snappy, some processorStats, idTable⟩ ⟨.zstd, none, twoRecordTable⟩
    rfl rfl

/-! ## Claim C9: statistics options -/

/-- C9: every file written by `process_json_to_parquet` embeds statistics
options requesting per-column minimum, maximum and null count, and never
distinct count. -/
theorem c9_statistics (p : Except String Table) (rp : Option String)
    (w d : Bool) (f : WrittenFile)
    (h : (process_json_to_parquet p rp w d).written = some f) :
    f.stats = some processorStats ∧
    processorStats.min_value = true ∧
    processorStats.max_value = true ∧
    processorStats.null_count = true ∧
    processorStats.distinct_count = false :=
  ⟨(processor_written_codec p rp w d f h).2, rfl, rfl, rfl, rfl⟩

/-- C9 witness at a concrete successful run. -/
theorem c9_statistics_witness :
    (⟨.snappy, some processorStats, idTable⟩ : WrittenFile).stats =
      some processorStats ∧
    processorStats.min_value = true ∧
    processorStats.max_value = true ∧
    processorStats.null_count = true ∧
    processorStats.distinct_count = false :=
  c9_statistics (.ok idTable) none true true
    ⟨.snappy, some processorStats, idTable⟩ rfl

/-! ## Claim C10: fixed envelope key of the analysis entry point -/

/-- C10: whenever the decoded document is not an object carrying a key
`resultado` whose value is an array — a bare array at the root included —
`process_raw_to_parquet` fails and creates no output file. The embedded
function takes no root-path argument: the key `resultado` is hardcoded. -/
theorem c10_fixed_root (j : Json) (w : Bool)
    (h : ∀ xs, j.getKey "resultado" ≠ some (.arr xs)) :
    (∃ e, (process_raw_to_parquet (.ok j) w).result = .error e) ∧
    (process_raw_to_parquet (.ok j) w).outputCreated = false ∧
    (process_raw_to_parquet (.ok j) w).written = none := by
  cases hg : j.getKey "resultado" with
  | none =>
    refine ⟨⟨"Campo resultado ausente no JSON.", ?_⟩, ?_, ?_⟩ <;>
      simp [process_raw_to_parquet, hg]
  | some l =>
    cases l
    case arr xs => exact absurd hg (h xs)
    all_goals
      refine ⟨⟨"O campo resultado nao e uma lista valida.", ?_⟩, ?_, ?_⟩ <;>
        simp [process_raw_to_parquet, hg]

/-- C10 witness: a bare array of records at the document root is
rejected. -/
theorem c10_fixed_root_witness :
    (∃ e, (process_raw_to_parquet (.ok bareArrayJson) true).result =
      .error e) ∧
    (process_raw_to_parquet (.ok bareArrayJson) true).outputCreated =
      false ∧
    (process_raw_to_parquet (.ok bareArrayJson) true).written = none :=
  c10_fixed_root bareArrayJson true
    (fun xs hx => by simp [bareArrayJson, Json.getKey] at hx)

/-! ## Claim C8: raw-file deletion discipline -/

/-- C8 counterexample: on an envelope with an empty record list, the
orchestrator reports success and deletes the raw file although no columnar
file was ever written — deletion is not always preceded by a completed
write. -/
theorem c8_delete_counterexample :
    mainUnit (.ok emptyResultadoJson) true true =
      ⟨.ok (0, 0), false, none, true⟩ := rfl

/-- C8 (amended): in the orchestrator (`main.rs` plus
`process_raw_to_parquet`), the raw file is deleted only when the unit
reports success, a successful deletion accompanies every reported success,
and any failure leaves the raw file intact while propagating the specific
error; a reported success with a nonzero row count implies a written
columnar file, but a success on an empty record list deletes the raw file
with no columnar file written. In the alternate `process_json_to_parquet`
pipeline, deletion strictly implies a completed successful write and any
failure leaves the raw file intact. -/
theorem c8_deletion (parsed : Except String Json) (wOk dOk : Bool)
    (p : Except String Table) (rp : Option String) (w2 d2 : Bool) :
    ((mainUnit parsed wOk dOk).rawDeleted = true →
      ∃ s, (mainUnit parsed wOk dOk).result = .ok s) ∧
    (∀ e, (mainUnit parsed wOk dOk).result = .error e →
      (mainUnit parsed wOk dOk).rawDeleted = false ∧
      (process_raw_to_parquet parsed wOk).result = .error e) ∧
    (∀ s, (mainUnit parsed wOk dOk).result = .ok s → dOk = true →
      (mainUnit parsed wOk dOk).rawDeleted = true) ∧
    (∀ s, (mainUnit parsed wOk dOk).result = .ok s → 0 < s.1 →
      ∃ f, (mainUnit parsed wOk dOk).written = some f) ∧
    ((process_json_to_parquet p rp w2 d2).rawDeleted = true →
      (process_json_to_parquet p rp w2 d2).result = .ok () ∧
      ∃ f, (process_json_to_parquet p rp w2 d2).written = some f) ∧
    (∀ e, (process_json_to_parquet p rp w2 d2).result = .error e →
      (process_json_to_parquet p rp w2 d2).rawDeleted = false) := by
  have hproc :
      ((process_json_to_parquet p rp w2 d2).rawDeleted = true →
        (process_json_to_parquet p rp w2 d2).result = .ok () ∧
        ∃ f, (process_json_to_parquet p rp w2 d2).written = some f) ∧
      (∀ e, (process_json_to_parquet p rp w2 d2).result = .error e →
        (process_json_to_parquet p rp w2 d2).rawDeleted = false) := by
    rcases processor_outcome_cases p rp w2 d2 with
      ⟨e0, he⟩ | he | ⟨df, he⟩ | ⟨df, he⟩ <;> rw [he] <;> simp
  rcases analysis_outcome_cases parsed wOk with ⟨e0, he⟩ | he | he | ⟨df, he⟩ <;>
    refine ⟨?_, ?_, ?_, ?_, hproc.1, hproc.2⟩ <;>
      simp [mainUnit, he]

/-- C8 witness: on a successful concrete run the raw file is deleted. -/
theorem c8_deletion_witness :
    (mainUnit (.ok twoRecordJson) true true).rawDeleted = true :=
  (c8_deletion (.ok twoRecordJson) true true (.ok idTable) none true
      true).2.2.1 (2, 2) rfl rfl

/-! ## Claim C6: Column Pruner -/

theorem eraseP_eq_filter_of_nodup (t : Table) (n : String)
    (hnd : (t.map (·.name)).Nodup) :
    t.eraseP (·.name = n) = t.filter (fun c => !(c.name == n)) := by
  induction t with
  | nil => rfl
  | cons c t ih =>
    simp only [List.map_cons, List.nodup_cons] at hnd
    rw [List.eraseP_cons, List.filter_cons]
    by_cases hc : c.name = n
    · have hd : decide (c.name = n) = true := by simp [hc]
      have hb : (!(c.name == n)) = false := by simp [hc]
      rw [hd, cond_true, hb, if_neg (by simp)]
      symm
      rw [List.filter_eq_self]
      intro a ha
      have han : a.name ≠ n := fun hae => hnd.1 (by
        rw [hc, ← hae]; exact List.mem_map_of_mem _ ha)
      simp [han]
    · have hd : decide (c.name = n) = false := by simp [hc]
      have hb : (!(c.name == n)) = true := by simp [hc]
      rw [hd, cond_false, hb, if_pos rfl, ih hnd.2]

theorem pruneStep_eq_filter (t : Table) (n : String)
    (hnd : (t.map (·.name)).Nodup) :
    pruneStep t n = .ok (t.filter (fun c => !(c.name == n))) := by
  unfold pruneStep dropCol
  by_cases h : hasCol t n
  · simp [h, eraseP_eq_filter_of_nodup t n hnd]
  · rw [if_neg (by simp [h])]
    congr 1
    symm
    rw [List.filter_eq_self]
    intro a ha
    simp only [hasCol, List.any_eq_true, decide_eq_true_eq, not_exists] at h
    have han : a.name ≠ n := fun hae =>
      (by simpa using h a : a ∈ t → ¬ a.name = n) ha hae
    simp [han]

theorem pruneStep_never_errors (t : Table) (n : String) :
    ∃ t1, pruneStep t n = .ok t1 := by
  unfold pruneStep dropCol
  by_cases h : hasCol t n <;> simp [h]

theorem pruneLoop_never_errors (ns : List String) :
    ∀ t : Table, ∃ t2, pruneLoop t ns = .ok t2 := by
  induction ns with
  | nil => exact fun t => ⟨t, rfl⟩
  | cons n ns ih =>
    intro t
    obtain ⟨t1, h1⟩ := pruneStep_never_errors t n
    obtain ⟨t2, h2⟩ := ih t1
    refine ⟨t2, ?_⟩
    rw [pruneLoop, h1]
    exact h2

theorem pruneLoop_eq_filter (ns : List String) (t : Table)
    (hnd : (t.map (·.name)).Nodup) :
    pruneLoop t ns = .ok (t.filter (fun c => !(ns.contains c.name))) := by
  induction ns generalizing t with
  | nil =>
    rw [pruneLoop]
    congr 1
    symm
    rw [List.filter_eq_self]
    intro a _
    rfl
  | cons n ns ih =>
    rw [pruneLoop, pruneStep_eq_filter t n hnd]
    have hnd2 : ((t.filter (fun c => !(c.name == n))).map (·.name)).Nodup :=
      (List.Sublist.map (·.name) (List.filter_sublist t)).nodup hnd
    show pruneLoop (t.filter (fun c => !(c.name == n))) ns = _
    rw [ih _ hnd2, List.filter_filter]
    congr 1
    apply List.filter_congr
    intro c _
    cases hcn : (c.name == n) <;>
      cases hcc : ns.contains c.name <;>
        simp_all [List.contains_cons]

/-- C6: the Column Pruner never errors on any table; on a table with unique
column names it removes exactly the columns whose name is in the fixed
technical set, keeping the remaining columns in their original order, and
it is idempotent. -/
theorem c6_column_pruner (t : Table) (hnd : (t.map (·.name)).Nodup) :
    (∀ u : Table, ∃ u2, pruneTechnical u = .ok u2) ∧
    pruneTechnical t =
      .ok (t.filter (fun c => !(technical_cols.contains c.name))) ∧
    pruneTechnical
        (t.filter (fun c => !(technical_cols.contains c.name))) =
      .ok (t.filter (fun c => !(technical_cols.contains c.name))) := by
  refine ⟨fun u => pruneLoop_never_errors technical_cols u,
    pruneLoop_eq_filter technical_cols t hnd, ?_⟩
  have hnd2 : ((t.filter
      (fun c => !(technical_cols.contains c.name))).map (·.name)).Nodup :=
    (List.Sublist.map (·.name) (List.filter_sublist t)).nodup hnd
  rw [pruneTechnical, pruneLoop_eq_filter technical_cols _ hnd2,
    List.filter_filter]
  congr 1
  apply List.filter_congr
  intro c _
  cases h : technical_cols.contains c.name <;> simp [h]

/-- C6 witness: pruning a concrete table with one technical column. -/
theorem c6_column_pruner_witness :
    pruneTechnical idTotalTable =
      .ok (idTotalTable.filter
        (fun c => !(technical_cols.contains c.name))) :=
  (c6_column_pruner idTotalTable (by decide)).2.1

/-! ## Claim C4: Byte-List Repairer -/

theorem repairValue_spec (v v2 : Value) (h : repairValue v = some v2) :
    rowRepaired v v2 := by
  cases v with
  | null =>
    unfold rowRepaired
    refine ⟨fun _ => ?_, fun items hi => nomatch hi⟩
    simp only [repairValue, Option.some.injEq] at h
    exact h.symm
  | listV items =>
    unfold rowRepaired
    refine ⟨(fun hn => nomatch hn), fun items2 hi => ?_⟩
    cases hi
    simp only [repairValue] at h
    cases hb : narrowAll items with
    | none => simp [hb] at h
    | some bytes =>
      simp only [hb] at h
      cases hd : utf8Decode bytes with
      | none => simp [hd] at h
      | some cs =>
        simp only [hd, Option.some.injEq] at h
        exact ⟨bytes, cs, rfl, hd, h.symm⟩
  | int i => simp [repairValue] at h
  | float q => simp [repairValue] at h
  | str s => simp [repairValue] at h
  | boolean b => simp [repairValue] at h
  | bin bs => simp [repairValue] at h
  | structV fs => simp [repairValue] at h

theorem repairAllValues_forall2 (vs : List Value) :
    ∀ vs2, repairAllValues vs = some vs2 →
      List.Forall₂ (fun v v2 => repairValue v = some v2) vs vs2 := by
  induction vs with
  | nil =>
    intro vs2 h
    cases h
    exact .nil
  | cons v vs ih =>
    intro vs2 h
    simp only [repairAllValues] at h
    cases hv : repairValue v with
    | none => simp [hv] at h
    | some v2 =>
      cases hrest : repairAllValues vs with
      | none => simp [hv, hrest] at h
      | some rest2 =>
        simp only [hv, hrest, Option.some.injEq] at h
        subst h
        exact .cons hv (ih rest2 hrest)

theorem repairColumn_spec (c c2 : Column) (h : repairColumn c = .ok c2) :
    columnRepaired c c2 := by
  unfold repairColumn at h
  by_cases hb : isByteListDType c.dtype
  · rw [if_pos hb] at h
    cases hv : repairAllValues c.values with
    | none => simp [hv] at h
    | some vs =>
      simp only [hv, Except.ok.injEq] at h
      subst h
      unfold columnRepaired
      refine ⟨fun hf => by rw [hb] at hf; exact Bool.noConfusion hf,
        fun _ => ?_⟩
      exact ⟨rfl, rfl, (repairAllValues_forall2 c.values vs hv).imp
        (fun v v2 hv2 => repairValue_spec v v2 hv2)⟩
  · rw [if_neg hb] at h
    simp only [Except.ok.injEq] at h
    subst h
    unfold columnRepaired
    exact ⟨fun _ => rfl, fun ht => absurd ht hb⟩

theorem byte_arrays_forall2 (t : Table) :
    ∀ t2, byte_arrays t = .ok t2 →
      List.Forall₂ (fun c c2 => repairColumn c = .ok c2) t t2 := by
  induction t with
  | nil =>
    intro t2 h
    cases h
    exact .nil
  | cons c t ih =>
    intro t2 h
    simp only [byte_arrays] at h
    cases hc : repairColumn c with
    | error e => simp [hc] at h
    | ok c2 =>
      simp only [hc] at h
      cases hrest : byte_arrays t with
      | error e => simp [hrest] at h
      | ok rest2 =>
        simp only [hrest, Except.ok.injEq] at h
        subst h
        exact .cons hc (ih rest2 hrest)

/-- C4: whenever `byte_arrays` succeeds, each column whose type is
list-of-int64 or list-of-float64 is replaced in place (same position, same
name) by a text column whose rows are obtained by narrowing each numeric
element into the 0-255 byte range and decoding the byte sequence as UTF-8,
and every column of any other type is left untouched. -/
theorem c4_byte_list_repairer (t t2 : Table) (h : byte_arrays t = .ok t2) :
    List.Forall₂ columnRepaired t t2 :=
  (byte_arrays_forall2 t t2 h).imp
    (fun c c2 hc => repairColumn_spec c c2 hc)

/-- C4 witness: the spec's scenario E — `descricao` holding
`[65, 110, 97]` becomes the text `"Ana"`. -/
theorem c4_byte_list_repairer_witness :
    byte_arrays descricaoTable = .ok descricaoRepaired ∧
    List.Forall₂ columnRepaired descricaoTable descricaoRepaired :=
  ⟨rfl, c4_byte_list_repairer descricaoTable descricaoRepaired rfl⟩

/-! ## Claim C5: exploding a list-of-struct root column -/

theorem explodeCol_spec (t : Table) (p : String) (tc : Column)
    (inner : DType) (hget : getCol t p = some tc)
    (hdt : tc.dtype = .listT inner) :
    explodeCol t p = .ok (t.map (fun c =>
      if c.name = p then
        ⟨c.name, inner, tc.values.flatMap explodeVal⟩
      else
        ⟨c.name, c.dtype, (tc.values.zip c.values).flatMap fun q =>
          List.replicate (explodeLen q.1) q.2⟩)) := by
  simp only [explodeCol, hget, hdt]

theorem getCol_map_of_name_preserving (t : Table) (E : Column → Column)
    (p : String) (hE : ∀ c, (E c).name = c.name) :
    getCol (t.map E) p = (getCol t p).map E := by
  unfold getCol
  rw [List.find?_map]
  have hq : ((fun x : Column => decide (x.name = p)) ∘ E) =
      (fun x : Column => decide (x.name = p)) := by
    funext c
    simp [Function.comp, hE c]
  rw [hq]

theorem unnestCol_struct_spec (t : Table) (p : String) (target : Column)
    (fts : List (String × DType)) (t2 : Table)
    (hget : getCol t p = some target)
    (hdt : target.dtype = .structT fts)
    (h : unnestCol t p = .ok t2) :
    t2 = t.flatMap (fun c =>
      if c.name = p then
        fts.map fun ft =>
          ⟨ft.1, ft.2, target.values.map (getFieldVal ft.1)⟩
      else [c]) := by
  simp only [unnestCol, hget, hdt] at h
  split at h
  · simp only [Except.ok.injEq] at h
    exact h.symm
  · cases h

theorem getCol_name (t : Table) (p : String) (tc : Column)
    (hget : getCol t p = some tc) : tc.name = p := by
  have := List.find?_some hget
  exact of_decide_eq_true this

/-- C5 (amended): when the root-path column is present with list-of-struct
type and the unnest succeeds, every original row whose list has length
k ≥ 1 contributes exactly k output rows, with the values of all non-target
columns replicated per-row; a row whose list is empty — or null —
contributes one output row (holding null struct fields), not zero; and the
struct fields become new top-level columns replacing the original
column. -/
theorem c5_explode_shape (t : Table) (p : String) (tc : Column)
    (fts : List (String × DType)) (t2 : Table)
    (hp : p ≠ "")
    (hget : getCol t p = some tc)
    (hdt : tc.dtype = .listT (.structT fts))
    (hlen : ∀ c ∈ t, c.values.length = tc.values.length)
    (h2 : rootUnnest t (some p) = .ok t2) :
    t2 = t.flatMap (fun c =>
      if c.name = p then
        fts.map fun ft =>
          ⟨ft.1, ft.2, (tc.values.flatMap explodeVal).map
            (getFieldVal ft.1)⟩
      else
        [⟨c.name, c.dtype, (tc.values.zip c.values).flatMap fun q =>
          List.replicate (explodeLen q.1) q.2⟩]) ∧
    (∀ c2 ∈ t2, c2.values.length = (tc.values.map explodeLen).sum) ∧
    (∀ x xs, explodeLen (.listV (x :: xs)) = (x :: xs).length) ∧
    explodeLen (.listV []) = 1 ∧ explodeLen .null = 1 ∧
    names t2 = t.flatMap (fun c =>
      if c.name = p then fts.map (·.1) else [c.name]) := by
  have hexp := explodeCol_spec t p tc (.structT fts) hget hdt
  simp only [rootUnnest, if_neg hp, hget, hdt, hexp] at h2
  have hE : ∀ c : Column, ((fun c =>
      if c.name = p then
        (⟨c.name, DType.structT fts, tc.values.flatMap explodeVal⟩ : Column)
      else
        ⟨c.name, c.dtype, (tc.values.zip c.values).flatMap fun q =>
          List.replicate (explodeLen q.1) q.2⟩) c).name = c.name := by
    intro c
    by_cases hc : c.name = p <;> simp [hc]
  have htcn : tc.name = p := getCol_name t p tc hget
  have hfind := getCol_map_of_name_preserving t _ p hE
  rw [hget] at hfind
  have hfind2 : getCol (t.map (fun c =>
      if c.name = p then
        (⟨c.name, DType.structT fts, tc.values.flatMap explodeVal⟩ : Column)
      else
        ⟨c.name, c.dtype, (tc.values.zip c.values).flatMap fun q =>
          List.replicate (explodeLen q.1) q.2⟩)) p =
      some (if tc.name = p then
        (⟨tc.name, DType.structT fts, tc.values.flatMap explodeVal⟩ : Column)
      else
        ⟨tc.name, tc.dtype, (tc.values.zip tc.values).flatMap fun q =>
          List.replicate (explodeLen q.1) q.2⟩) := hfind
  rw [if_pos htcn] at hfind2
  have hform := unnestCol_struct_spec _ p _ fts t2 hfind2 rfl h2
  have hmain : t2 = t.flatMap (fun c =>
      if c.name = p then
        fts.map fun ft =>
          ⟨ft.1, ft.2, (tc.values.flatMap explodeVal).map
            (getFieldVal ft.1)⟩
      else
        [⟨c.name, c.dtype, (tc.values.zip c.values).flatMap fun q =>
          List.replicate (explodeLen q.1) q.2⟩]) := by
    rw [hform, List.flatMap_map]
    apply List.flatMap_congr
    intro c _
    by_cases hc : c.name = p <;> simp [hc]
  refine ⟨hmain, ?_, fun x xs => rfl, rfl, rfl, ?_⟩
  · intro c2 hc2
    rw [hmain] at hc2
    rw [List.mem_flatMap] at hc2
    obtain ⟨c, hct, hcb⟩ := hc2
    by_cases hc : c.name = p
    · rw [if_pos hc] at hcb
      rw [List.mem_map] at hcb
      obtain ⟨ft, _, hft⟩ := hcb
      rw [← hft]
      simp only [List.length_map, List.length_flatMap]
      rfl
    · rw [if_neg hc] at hcb
      rw [List.mem_singleton] at hcb
      subst hcb
      simp only [List.length_flatMap]
      have hone : ((tc.values.zip c.values).map
          (List.length ∘ fun q => List.replicate (explodeLen q.1) q.2)) =
          (tc.values.zip c.values).map (fun q => explodeLen q.1) := by
        apply List.map_congr_left
        intro q _
        simp [Function.comp, List.length_replicate]
      rw [hone]
      have hfst : (tc.values.zip c.values).map (fun q => explodeLen q.1) =
          ((tc.values.zip c.values).map Prod.fst).map explodeLen := by
        rw [List.map_map]
        rfl
      rw [hfst, List.map_fst_zip]
      exact le_of_eq (hlen c hct).symm
  · rw [hmain]
    unfold names
    rw [List.map_flatMap]
    apply List.flatMap_congr
    intro c _
    by_cases hc : c.name = p <;> simp [hc]

/-- C5 counterexample: a present list-of-struct root column whose only row
holds an empty list (k = 0) yields one output row, not zero output rows. -/
theorem c5_explode_counterexample :
    rootUnnest emptyListRowTable (some "r") =
      .ok [⟨"a", .int64, [.int 1]⟩, ⟨"x", .int64, [.null]⟩] ∧
    height [(⟨"a", .int64, [.int 1]⟩ : Column),
      ⟨"x", .int64, [.null]⟩] = 1 :=
  ⟨rfl, rfl⟩

/-- C5 witness: the explicit output formula at a concrete two-row table. -/
theorem c5_explode_shape_witness :
    exampleExplodeOut = exampleExplodeTable.flatMap (fun c =>
      if c.name = "r" then
        [("x", DType.int64)].map fun ft =>
          ⟨ft.1, ft.2, (exampleExplodeTarget.values.flatMap explodeVal).map
            (getFieldVal ft.1)⟩
      else
        [⟨c.name, c.dtype,
          (exampleExplodeTarget.values.zip c.values).flatMap fun q =>
            List.replicate (explodeLen q.1) q.2⟩]) :=
  (c5_explode_shape exampleExplodeTable "r" exampleExplodeTarget
    [("x", .int64)] exampleExplodeOut (by decide) rfl rfl (by decide)
    rfl).1

end RustETL